import Mathlib

/-!
Verification of the sales aggregation CLI (`src/app/sales_cli.py`) and the
arithmetic helpers (`src/app/math_utils.py`).

Modelling conventions:
* Python `float` values are modelled as exact rationals (`ℚ`).  A string
  accepted by Python's `float()` constructor may also denote an infinity or a
  NaN, so the result of parsing an `amount` field is a `PyVal` separating the
  finite (rational) case from the non-finite ones.
* A CSV file is modelled as its text content (a `String`); the reader is
  modelled for files that use `\n` line endings and contain no quoted fields,
  which covers every input exercised below.  As in `csv.DictReader`, blank
  lines produce empty records and the dict reader skips them.
* Python `dict` preserves insertion order; the accumulation dictionaries of
  the aggregation functions are modelled as association lists updated in
  place (`upsert`).
* Python `sorted` is a stable sort; it is modelled by `List.insertionSort`
  (also stable) over the decidable total order induced by the sort key.
-/

/-- Calendar date (`datetime.date`), a year/month/day triple. -/
structure Date where
  year : Nat
  month : Nat
  day : Nat
deriving DecidableEq, Repr

/-- The value denoted by a string accepted by Python's `float()`: a finite
value (modelled exactly as a rational) or one of the non-finite floats. -/
inductive PyVal where
  | finite (q : ℚ)
  | inf
  | neginf
  | nan
deriving DecidableEq, Repr

/-- `Row` from `sales_cli.py` as consumed by the aggregation and formatting
functions: a validated record whose amount is a finite numeric value. -/
structure Row where
  dt : Date
  sku : String
  amount : ℚ
deriving DecidableEq, Repr

/-- `Row` as produced by `parse_rows`: the amount is whatever `float()`
returned, which may be non-finite. -/
structure ParsedRow where
  dt : Date
  sku : String
  amount : PyVal
deriving DecidableEq, Repr

/-! ### Python string primitives -/

/-- Characters removed by Python's `str.strip()` (ASCII fragment). -/
def isPySpace (c : Char) : Bool :=
  c == ' ' || c == '\t' || c == '\n' || c == '\r' || c == '\x0b' || c == '\x0c'

/-- Python `str.strip()`. -/
def pyStrip (s : String) : String :=
  (((s.toList.dropWhile isPySpace).reverse.dropWhile isPySpace).reverse).asString

/-- Split a character list on a separator character. -/
def splitOnCharAux (sep : Char) : List Char → List Char → List (List Char)
  | [], acc => [acc.reverse]
  | c :: cs, acc =>
    if c == sep then acc.reverse :: splitOnCharAux sep cs []
    else splitOnCharAux sep cs (c :: acc)

/-- Split a string on a separator character. -/
def splitChar (sep : Char) (s : String) : List String :=
  (splitOnCharAux sep s.toList []).map List.asString

/-- Code-point lexicographic order on character lists: how Python compares
`str` values (used by `sorted` for SKU tie-breaks). -/
def charListLt : List Char → List Char → Bool
  | [], [] => false
  | [], _ :: _ => true
  | _ :: _, [] => false
  | a :: as, b :: bs =>
    if a.toNat < b.toNat then true
    else if b.toNat < a.toNat then false
    else charListLt as bs

/-- Python `<` on strings. -/
def pyStrLt (a b : String) : Prop := charListLt a.toList b.toList = true

instance : DecidableRel pyStrLt := fun a b =>
  inferInstanceAs (Decidable (charListLt a.toList b.toList = true))

/-- Python `<=` on strings (total order, so `a <= b ↔ ¬ b < a`). -/
def pyStrLe (a b : String) : Prop := ¬ pyStrLt b a

instance : DecidableRel pyStrLe := fun a b =>
  inferInstanceAs (Decidable (¬ pyStrLt b a))

/-! ### `float()` — the Python float constructor (`sales_cli.py` line 83)

Grammar accepted (for an already-stripped string): an optional sign followed
by `inf`, `infinity` or `nan` (case-insensitive), or by a decimal number
`digits [. digits] [exponent]` / `. digits [exponent]` where single
underscores may separate digits and the exponent is `e`/`E`, an optional
sign, and digits.  Finite values are computed exactly. -/

/-- Accumulate a run of digits (with single underscores allowed between
digits), returning the value, the number of digits read, and the rest. -/
def digitsCore : Nat → Nat → List Char → Nat × Nat × List Char
  | v, n, [] => (v, n, [])
  | v, n, c :: cs =>
    if c.isDigit then digitsCore (v * 10 + (c.toNat - 48)) (n + 1) cs
    else if c == '_' then
      match cs with
      | d :: cs2 =>
        if d.isDigit then digitsCore (v * 10 + (d.toNat - 48)) (n + 1) cs2
        else (v, n, c :: cs)
      | [] => (v, n, [c])
    else (v, n, c :: cs)

/-- A digit part must start with a digit. -/
def digitPart (cs : List Char) : Option (Nat × Nat × List Char) :=
  match cs with
  | c :: rest => if c.isDigit then some (digitsCore (c.toNat - 48) 1 rest) else none
  | [] => none

/-- Exponent digits, after the sign: scale the mantissa. -/
def parseExpDigits (m : ℚ) (neg : Bool) (cs : List Char) : Option (ℚ × List Char) :=
  match digitPart cs with
  | some (e, _, rest) => some (if neg then m / 10 ^ e else m * 10 ^ e, rest)
  | none => none

/-- The part after a leading `e`/`E`. -/
def parseAfterE (m : ℚ) : List Char → Option (ℚ × List Char)
  | c :: cs =>
    if c == '+' then parseExpDigits m false cs
    else if c == '-' then parseExpDigits m true cs
    else parseExpDigits m false (c :: cs)
  | [] => none

/-- An optional exponent. -/
def parseExpOpt (m : ℚ) : List Char → Option (ℚ × List Char)
  | c :: cs => if c == 'e' || c == 'E' then parseAfterE m cs else some (m, c :: cs)
  | [] => some (m, [])

/-- An optional fractional part followed by an optional exponent, given the
integer part. -/
def parseFrac (ip : ℚ) : List Char → Option (ℚ × List Char)
  | '.' :: rest =>
    (match digitPart rest with
     | some (fp, fn, rest2) => parseExpOpt (ip + (fp : ℚ) / 10 ^ fn) rest2
     | none => parseExpOpt ip rest)
  | cs => parseExpOpt ip cs

/-- An unsigned decimal number. -/
def parseNumber (cs : List Char) : Option (ℚ × List Char) :=
  match digitPart cs with
  | some (ip, _, rest) => parseFrac (ip : ℚ) rest
  | none =>
    match cs with
    | '.' :: rest =>
      (match digitPart rest with
       | some (fp, fn, rest2) => parseExpOpt ((fp : ℚ) / 10 ^ fn) rest2
       | none => none)
    | _ => none

/-- An unsigned `float()` literal. -/
def pyFloatUnsigned (cs : List Char) : Option PyVal :=
  let l := cs.map Char.toLower
  if l = ['i', 'n', 'f'] ∨ l = ['i', 'n', 'f', 'i', 'n', 'i', 't', 'y'] then some PyVal.inf
  else if l = ['n', 'a', 'n'] then some PyVal.nan
  else
    match parseNumber cs with
    | some (q, []) => some (PyVal.finite q)
    | _ => none

/-- Negation of a Python float value. -/
def PyVal.negate : PyVal → PyVal
  | .finite q => .finite (-q)
  | .inf => .neginf
  | .neginf => .inf
  | .nan => .nan

/-- Python `float(s)` for an already-stripped string `s`: `none` models the
`ValueError` raised on unparseable input. -/
def pyFloat (s : String) : Option PyVal :=
  match s.toList with
  | '+' :: cs => pyFloatUnsigned cs
  | '-' :: cs => (pyFloatUnsigned cs).map PyVal.negate
  | cs => pyFloatUnsigned cs

/-! ### `date.fromisoformat` (`sales_cli.py` line 78) -/

/-- Gregorian leap year. -/
def isLeap (y : Nat) : Bool := (y % 4 == 0 && y % 100 != 0) || y % 400 == 0

/-- Days in a month. -/
def daysInMonth (y m : Nat) : Nat :=
  if m = 2 then (if isLeap y then 29 else 28)
  else if m = 4 ∨ m = 6 ∨ m = 9 ∨ m = 11 then 30
  else 31

/-- Numeric value of a digit character. -/
def digitVal (c : Char) : Nat := c.toNat - 48

/-- `datetime.date.fromisoformat`: strict `YYYY-MM-DD`; `none` models the
`ValueError` raised on anything else. -/
def fromisoformat (s : String) : Option Date :=
  match s.toList with
  | [y1, y2, y3, y4, h1, m1, m2, h2, d1, d2] =>
    if y1.isDigit && y2.isDigit && y3.isDigit && y4.isDigit && h1 == '-' &&
       m1.isDigit && m2.isDigit && h2 == '-' && d1.isDigit && d2.isDigit then
      let y := 1000 * digitVal y1 + 100 * digitVal y2 + 10 * digitVal y3 + digitVal y4
      let m := 10 * digitVal m1 + digitVal m2
      let d := 10 * digitVal d1 + digitVal d2
      if 1 ≤ y ∧ 1 ≤ m ∧ m ≤ 12 ∧ 1 ≤ d ∧ d ≤ daysInMonth y m then some ⟨y, m, d⟩
      else none
    else none
  | _ => none

/-! ### The CSV reader (`csv.DictReader` as used in `parse_rows`) -/

/-- The fields of one physical line: a blank line is an empty record. -/
def toRecord (line : String) : List String :=
  if line = "" then [] else splitChar ',' line

/-- The records of a CSV file: one per physical line, a trailing newline
terminating (not starting) a final record. -/
def fileRecords (content : String) : List (List String) :=
  (let ls := splitChar '\n' content
   if ls.getLast? = some "" then ls.dropLast else ls).map toRecord

/-- Looking a column name up in a `DictReader` row dict: the dict maps each
fieldname (last occurrence winning) to the field at its index, or to `None`
(`restval`) when the record is shorter than the header. -/
def lastIdxOf (key : String) : List String → Option Nat
  | [] => none
  | x :: xs =>
    match lastIdxOf key xs with
    | some i => some (i + 1)
    | none => if x = key then some 0 else none

/-- `raw.get(key)` on the row dict built from the header and one record. -/
def dictGet (fieldnames fields : List String) (key : String) : Option String :=
  match lastIdxOf key fieldnames with
  | some i => fields.get? i
  | none => none

/-! ### `parse_rows` (`sales_cli.py` lines 40–91) -/

/-- The alphabetically sorted required columns missing from the header,
after stripping each header cell (lines 60–65). -/
def missingColumns (fieldnames : List String) : List String :=
  ["amount", "date", "sku"].filter (fun c => !((fieldnames.map pyStrip).contains c))

/-- The body of the row loop (lines 69–87): field extraction with
`(raw.get(k) or "").strip()`, then sku / date / amount validation in that
order, each failure raising `InputError` with the reported line number. -/
def parseRecord (i : Nat) (get : String → Option String) : Except String ParsedRow :=
  let dt_str := pyStrip ((get "date").getD "")
  let sku := pyStrip ((get "sku").getD "")
  let amt_str := pyStrip ((get "amount").getD "")
  if sku = "" then .error ("line " ++ toString i ++ ": sku must be non-empty")
  else
    match fromisoformat dt_str with
    | none => .error ("line " ++ toString i ++ ": invalid date '" ++ dt_str ++ "' (YYYY-MM-DD)")
    | some dt =>
      match pyFloat amt_str with
      | none => .error ("line " ++ toString i ++ ": invalid amount '" ++ amt_str ++ "'")
      | some v => .ok ⟨dt, sku, v⟩

/-- The row loop (`for i, raw in enumerate(reader, start=2)`): the first
failing record aborts with its error; otherwise all rows are returned. -/
def parseRecords (fieldnames : List String) : Nat → List (List String) → Except String (List ParsedRow)
  | _, [] => .ok []
  | i, r :: rs =>
    match parseRecord i (dictGet fieldnames r) with
    | .error e => .error e
    | .ok row =>
      match parseRecords fieldnames (i + 1) rs with
      | .error e => .error e
      | .ok rows => .ok (row :: rows)

/-- `parse_rows` on the file's content (the existence check and byte-size
check of lines 48–52 become: empty content is the empty list).  `.error`
models raising `InputError`. -/
def parse_rows (content : String) : Except String (List ParsedRow) :=
  if content = "" then .ok []
  else
    match fileRecords content with
    | [] => .error "missing header row with required columns: date, sku, amount"
    | fieldnames :: dataRecs =>
      if missingColumns fieldnames = [] then
        parseRecords fieldnames 2 (dataRecs.filter (fun r => !r.isEmpty))
      else
        .error ("missing required columns: " ++ String.intercalate ", " (missingColumns fieldnames))

/-- `main`'s exit code as a function of the input file's content (lines
172–177 and 195): 2 when `parse_rows` raises `InputError`, else 0. -/
def mainExit (content : String) : Nat :=
  match parse_rows content with
  | .error _ => 2
  | .ok _ => 0

/-! ### Aggregation (`sales_cli.py` lines 94–116) -/

/-- `totals[k] = totals.get(k, 0.0) + a` on an insertion-ordered dict. -/
def upsert {α : Type} [DecidableEq α] : List (α × ℚ) → α → ℚ → List (α × ℚ)
  | [], k, a => [(k, a)]
  | (k0, v) :: rest, k, a =>
    if k0 = k then (k0, v + a) :: rest else (k0, v) :: upsert rest k a

/-- The `totals` dict of `aggregate_by_sku` after the loop. -/
def skuTotals (rows : List Row) : List (String × ℚ) :=
  rows.foldl (fun acc r => upsert acc r.sku r.amount) []

/-- The order induced by the sort key `(-amount, sku)` of line 105. -/
def skuOrder (a b : String × ℚ) : Prop :=
  b.2 < a.2 ∨ (a.2 = b.2 ∧ pyStrLe a.1 b.1)

instance : DecidableRel skuOrder := fun a b =>
  inferInstanceAs (Decidable (b.2 < a.2 ∨ (a.2 = b.2 ∧ pyStrLe a.1 b.1)))

/-- `aggregate_by_sku` (lines 94–107). -/
def aggregate_by_sku (rows : List Row) : List (String × ℚ) :=
  List.insertionSort skuOrder (skuTotals rows)

/-- Python's `<=` on `date` values (tuple comparison on (y, m, d)). -/
def dateLe (a b : Date) : Prop :=
  a.year < b.year ∨ (a.year = b.year ∧
    (a.month < b.month ∨ (a.month = b.month ∧ a.day ≤ b.day)))

instance : DecidableRel dateLe := fun a b =>
  inferInstanceAs (Decidable (a.year < b.year ∨ (a.year = b.year ∧
    (a.month < b.month ∨ (a.month = b.month ∧ a.day ≤ b.day)))))

/-- The order induced by the sort key `kv[0]` of line 116. -/
def dateOrder (a b : Date × ℚ) : Prop := dateLe a.1 b.1

instance : DecidableRel dateOrder := fun a b =>
  inferInstanceAs (Decidable (dateLe a.1 b.1))

/-- The `totals` dict of `aggregate_by_date` after the loop. -/
def dateTotals (rows : List Row) : List (Date × ℚ) :=
  rows.foldl (fun acc r => upsert acc r.dt r.amount) []

/-- `aggregate_by_date` (lines 110–116). -/
def aggregate_by_date (rows : List Row) : List (Date × ℚ) :=
  List.insertionSort dateOrder (dateTotals rows)

/-! ### Formatting (`sales_cli.py` lines 119–141) -/

/-- Zero-padding to two digits. -/
def pad2 (n : Nat) : String := if n < 10 then "0" ++ toString n else toString n

/-- Zero-padding to four digits. -/
def pad4 (n : Nat) : String :=
  if n < 10 then "000" ++ toString n
  else if n < 100 then "00" ++ toString n
  else if n < 1000 then "0" ++ toString n
  else toString n

/-- `date.isoformat()`. -/
def Date.isoformat (d : Date) : String :=
  pad4 d.year ++ "-" ++ pad2 d.month ++ "-" ++ pad2 d.day

/-- Round to the nearest integer, ties to even — the rounding used by
Python's fixed-point float formatting. -/
def roundHalfEven (q : ℚ) : ℤ :=
  if q - ⌊q⌋ < 1 / 2 then ⌊q⌋
  else if (1 : ℚ) / 2 < q - ⌊q⌋ then ⌊q⌋ + 1
  else if ⌊q⌋ % 2 = 0 then ⌊q⌋ else ⌊q⌋ + 1

/-- Python `f"{x:.2f}"` on the exact value `q`. -/
def formatTwoDec (q : ℚ) : String :=
  (if roundHalfEven (q * 100) < 0 then "-" else "") ++
    toString ((roundHalfEven (q * 100)).natAbs / 100) ++ "." ++
    pad2 ((roundHalfEven (q * 100)).natAbs % 100)

/-- Python `min` on two dates (first wins ties). -/
def dateMin (a b : Date) : Date := if dateLe a b then a else b

/-- Python `max` on two dates (first wins ties); folded as `max(acc, x)`. -/
def dateMax (a b : Date) : Date := if dateLe b a then a else b

/-- The `DATE_RANGE` payload (lines 135–139). -/
def dateRange (rows : List Row) : String :=
  match rows.map Row.dt with
  | [] => "unknown"
  | d :: ds => (ds.foldl dateMin d).isoformat ++ ".." ++ (ds.foldl dateMax d).isoformat

/-- One `BY_SKU` output line. -/
def skuLine (p : String × ℚ) : String := p.1 ++ "," ++ formatTwoDec p.2

/-- One `BY_DATE` output line. -/
def dateLine (p : Date × ℚ) : String := p.1.isoformat ++ "," ++ formatTwoDec p.2

/-- The lines of `_format_output` (lines 119–141): TOTAL, the `BY_SKU`
header, the (possibly truncated) by-SKU lines, the optional `BY_DATE`
section, and the `DATE_RANGE` line. -/
def formatLines (rows : List Row) (top : Option Int) (by_date : Bool) : List String :=
  ["TOTAL," ++ formatTwoDec ((rows.map Row.amount).sum), "BY_SKU"]
  ++ (match top with
      | some n => if 0 ≤ n then (aggregate_by_sku rows).take n.toNat
                  else aggregate_by_sku rows
      | none => aggregate_by_sku rows).map skuLine
  ++ (if by_date then
        "BY_DATE" :: (aggregate_by_date rows).map dateLine
      else [])
  ++ ["DATE_RANGE," ++ dateRange rows]

/-- `_format_output`: the lines joined by newlines. -/
def _format_output (rows : List Row) (top : Option Int) (by_date : Bool) : String :=
  String.intercalate "\n" (formatLines rows top by_date)

/-! ### `main`'s truncation and export (`sales_cli.py` lines 179–194) -/

/-- `top_n = ns.top if ns.top is not None and ns.top >= 0 else None`
(line 181). -/
def mainTop (top : Option Int) : Option Int :=
  match top with
  | some n => if 0 ≤ n then some n else none
  | none => none

/-- The by-SKU table `main` computes once and reuses (lines 180–183). -/
def mainBySku (rows : List Row) (top : Option Int) : List (String × ℚ) :=
  match mainTop top with
  | some n => (aggregate_by_sku rows).take n.toNat
  | none => aggregate_by_sku rows

/-- The rows handed to `csv.writer.writerow` for the export (lines 188–192):
the header and one `[sku, f"{amt:.2f}"]` row per pair. -/
def exportTable (rows : List Row) (top : Option Int) : List (List String) :=
  ["sku", "amount"] :: (mainBySku rows top).map (fun p => [p.1, formatTwoDec p.2])

/-- The display output printed by `main` (line 194): `_format_output`
receives the already-normalised `top_n`. -/
def mainOutput (rows : List Row) (top : Option Int) (by_date : Bool) : String :=
  _format_output rows (mainTop top) by_date

/-! ### `math_utils.py` -/

/-- `add` (`math_utils.py` lines 10–21). -/
def add (a b : ℚ) : ℚ := a + b

/-- `divide` (`math_utils.py` lines 24–39): `.error` models raising
`ZeroDivisionError`. -/
def divide (a b : ℚ) : Except String ℚ :=
  if b = 0 then .error "division by zero" else .ok (a / b)

/-- Value associated to a key in the accumulation dict (0 when absent);
used to state what the grouping fold computes. -/
def getVal {α : Type} [DecidableEq α] : List (α × ℚ) → α → ℚ
  | [], _ => 0
  | p :: rest, s => if p.1 = s then p.2 else getVal rest s

/-- The record list of the specification's worked example. -/
def exampleRecords : List Row :=
  [⟨⟨2024, 6, 1⟩, "AAA", 10⟩, ⟨⟨2024, 6, 2⟩, "BBB", 11/2⟩, ⟨⟨2024, 6, 3⟩, "AAA", 5/2⟩,
   ⟨⟨2024, 6, 3⟩, "CCC", 20⟩, ⟨⟨2024, 6, 5⟩, "BBB", 3⟩, ⟨⟨2024, 6, 6⟩, "AAA", 7⟩]

/-! ### Order facts about the Python string order -/

theorem charListLt_asymm : ∀ as bs : List Char,
    charListLt as bs = true → charListLt bs as = false
  | [], [] => by simp [charListLt]
  | [], _ :: _ => by simp [charListLt]
  | _ :: _, [] => by simp [charListLt]
  | a :: as, b :: bs => by
    simp only [charListLt]
    rcases Nat.lt_trichotomy a.toNat b.toNat with h | h | h
    · simp [h, Nat.lt_asymm h]
    · simp [h, Nat.lt_irrefl]
      exact charListLt_asymm as bs
    · simp [h, Nat.lt_asymm h]

theorem charListLe_trans : ∀ as bs cs : List Char,
    charListLt bs as = false → charListLt cs bs = false → charListLt cs as = false
  | [], bs, cs => by
    intro _ _
    cases cs <;> simp [charListLt]
  | _ :: _, [], _ => by
    intro h1 _
    simp [charListLt] at h1
  | _ :: _, _ :: _, [] => by
    intro _ h2
    simp [charListLt] at h2
  | a :: as, b :: bs, c :: cs => by
    simp only [charListLt]
    rcases Nat.lt_trichotomy b.toNat a.toNat with h1 | h1 | h1
    · simp [h1]
    · rcases Nat.lt_trichotomy c.toNat b.toNat with h2 | h2 | h2
      · simp [h2]
      · have e1 : ¬ c.toNat < a.toNat := by omega
        have e2 : ¬ a.toNat < c.toNat := by omega
        simp [h1, h2, Nat.lt_irrefl, e1, e2]
        exact charListLe_trans as bs cs
      · have e1 : ¬ c.toNat < a.toNat := by omega
        have e2 : a.toNat < c.toNat := by omega
        simp [e1, e2]
    · rcases Nat.lt_trichotomy c.toNat b.toNat with h2 | h2 | h2
      · simp [h2]
      · have e1 : ¬ c.toNat < a.toNat := by omega
        have e2 : a.toNat < c.toNat := by omega
        simp [e1, e2]
      · have e1 : ¬ c.toNat < a.toNat := by omega
        have e2 : a.toNat < c.toNat := by omega
        simp [e1, e2]

theorem charListLt_connex : ∀ as bs : List Char,
    charListLt as bs = false → charListLt bs as = false → as = bs
  | [], [] => by simp
  | [], _ :: _ => by simp [charListLt]
  | _ :: _, [] => by
    intro _ h2
    simp [charListLt] at h2
  | a :: as, b :: bs => by
    simp only [charListLt]
    rcases Nat.lt_trichotomy a.toNat b.toNat with h | h | h
    · simp [h]
    · have e1 : ¬ a.toNat < b.toNat := by omega
      have e2 : ¬ b.toNat < a.toNat := by omega
      simp [e1, e2]
      intro h1 h2
      have hab : a = b := by
        rw [Char.ext_iff, UInt32.ext_iff]
        exact h
      exact ⟨hab, charListLt_connex as bs h1 h2⟩
    · simp [h, Nat.lt_asymm h]

theorem pyStrLe_total (a b : String) : pyStrLe a b ∨ pyStrLe b a := by
  by_cases h : pyStrLt b a
  · right
    intro hc
    have hf := charListLt_asymm a.toList b.toList hc
    have ht : charListLt b.toList a.toList = true := h
    rw [ht] at hf
    exact Bool.true_eq_false.mp hf
  · left
    exact h

theorem pyStrLe_trans {a b c : String} (h1 : pyStrLe a b) (h2 : pyStrLe b c) :
    pyStrLe a c := by
  intro hc
  have hba : charListLt b.toList a.toList = false := by
    have := h1
    simp [pyStrLe, pyStrLt] at this
    exact this
  have hcb : charListLt c.toList b.toList = false := by
    have := h2
    simp [pyStrLe, pyStrLt] at this
    exact this
  have hfin := charListLe_trans a.toList b.toList c.toList hba hcb
  have : charListLt c.toList a.toList = true := hc
  rw [this] at hfin
  exact Bool.true_eq_false.mp hfin

theorem toList_injective {a b : String} (h : a.toList = b.toList) : a = b := by
  cases a
  cases b
  exact congrArg String.mk h

theorem pyStrLe_lt_of_ne {a b : String} (h : pyStrLe a b) (hne : a ≠ b) :
    pyStrLt a b := by
  by_cases hab : pyStrLt a b
  · exact hab
  · exfalso
    have hba : charListLt b.toList a.toList = false := by
      have := h
      simp [pyStrLe, pyStrLt] at this
      exact this
    have hf : charListLt a.toList b.toList = false := by
      have := hab
      simp [pyStrLt] at this
      exact this
    exact hne (toList_injective (charListLt_connex _ _ hf hba))

theorem skuOrder_total : ∀ a b : String × ℚ, skuOrder a b ∨ skuOrder b a := by
  intro a b
  rcases lt_trichotomy a.2 b.2 with h | h | h
  · exact Or.inr (Or.inl h)
  · rcases pyStrLe_total a.1 b.1 with hs | hs
    · exact Or.inl (Or.inr ⟨h, hs⟩)
    · exact Or.inr (Or.inr ⟨h.symm, hs⟩)
  · exact Or.inl (Or.inl h)

theorem skuOrder_trans : ∀ a b c : String × ℚ, skuOrder a b → skuOrder b c → skuOrder a c := by
  intro a b c hab hbc
  rcases hab with h1 | ⟨he1, hs1⟩
  · rcases hbc with h2 | ⟨he2, _⟩
    · exact Or.inl (h2.trans h1)
    · exact Or.inl (he2 ▸ h1)
  · rcases hbc with h2 | ⟨he2, hs2⟩
    · exact Or.inl (by rw [he1]; exact h2)
    · exact Or.inr ⟨he1.trans he2, pyStrLe_trans hs1 hs2⟩
/-! ### Properties of the accumulation dictionary -/

section UpsertLemmas

variable {α : Type} [DecidableEq α]

theorem upsert_keys (acc : List (α × ℚ)) (k : α) (a : ℚ) :
    (upsert acc k a).map Prod.fst =
      if k ∈ acc.map Prod.fst then acc.map Prod.fst else acc.map Prod.fst ++ [k] := by
  induction acc with
  | nil => simp [upsert]
  | cons p rest ih =>
    obtain ⟨k0, v⟩ := p
    by_cases h : k0 = k
    · subst h
      simp [upsert]
    · have hne : ¬ (k = k0) := fun hh => h hh.symm
      by_cases hm : k ∈ rest.map Prod.fst <;>
        simp [upsert, h, ih, hm, hne]

theorem mem_upsert_keys (acc : List (α × ℚ)) (k : α) (a : ℚ) (s : α) :
    s ∈ (upsert acc k a).map Prod.fst ↔ s ∈ acc.map Prod.fst ∨ s = k := by
  rw [upsert_keys]
  by_cases h : k ∈ acc.map Prod.fst
  · rw [if_pos h]
    constructor
    · exact Or.inl
    · rintro (hs | rfl)
      · exact hs
      · exact h
  · rw [if_neg h]
    simp

theorem upsert_keys_nodup (acc : List (α × ℚ)) (k : α) (a : ℚ)
    (h : (acc.map Prod.fst).Nodup) : ((upsert acc k a).map Prod.fst).Nodup := by
  rw [upsert_keys]
  by_cases hm : k ∈ acc.map Prod.fst
  · rwa [if_pos hm]
  · rw [if_neg hm]
    simp [List.nodup_append, h, hm]

theorem upsert_values_sum (acc : List (α × ℚ)) (k : α) (a : ℚ) :
    ((upsert acc k a).map Prod.snd).sum = (acc.map Prod.snd).sum + a := by
  induction acc with
  | nil => simp [upsert]
  | cons p rest ih =>
    obtain ⟨k0, v⟩ := p
    by_cases h : k0 = k
    · subst h
      simp [upsert]
      ring
    · simp [upsert, h, ih]
      ring

theorem getVal_upsert (acc : List (α × ℚ)) (k : α) (a : ℚ) (s : α) :
    getVal (upsert acc k a) s = if s = k then getVal acc s + a else getVal acc s := by
  induction acc with
  | nil =>
    by_cases h : s = k
    · subst h
      simp [upsert, getVal]
    · have : ¬ (k = s) := fun hh => h hh.symm
      simp [upsert, getVal, h, this]
  | cons p rest ih =>
    obtain ⟨k0, v⟩ := p
    by_cases h : k0 = k
    · subst h
      by_cases hs : k0 = s
      · subst hs
        simp [upsert, getVal]
      · have : ¬ (s = k0) := fun hh => hs hh.symm
        simp [upsert, getVal, hs, this]
    · by_cases hs : k0 = s
      · have hsk : ¬ (s = k) := fun hh => h (hs.trans hh)
        simp [upsert, getVal, h, hs, hsk]
      · simp [upsert, getVal, h, hs, ih]

theorem getVal_of_mem : ∀ (l : List (α × ℚ)) (p : α × ℚ), p ∈ l →
    (l.map Prod.fst).Nodup → p.2 = getVal l p.1
  | q :: rest, p, hmem, hnd => by
    rcases List.mem_cons.mp hmem with rfl | hm
    · simp [getVal]
    · have hnd2 : (q.1 :: rest.map Prod.fst).Nodup := by
        simpa using hnd
      obtain ⟨hq, hrest⟩ := List.nodup_cons.mp hnd2
      have hp1 : p.1 ∈ rest.map Prod.fst := List.mem_map_of_mem Prod.fst hm
      have hne : ¬ (q.1 = p.1) := fun hh => hq (hh ▸ hp1)
      simpa [getVal, hne] using getVal_of_mem rest p hm hrest

end UpsertLemmas

/-! ### Properties of the grouping fold -/

section GroupFold

variable {α : Type} [DecidableEq α] (key : Row → α) (amt : Row → ℚ)

theorem foldl_upsert_getVal : ∀ (rows : List Row) (acc : List (α × ℚ)) (s : α),
    getVal (rows.foldl (fun ac r => upsert ac (key r) (amt r)) acc) s
      = getVal acc s + ((rows.filter (fun r => key r == s)).map amt).sum
  | [], acc, s => by simp
  | r :: rest, acc, s => by
    simp only [List.foldl_cons]
    rw [foldl_upsert_getVal rest (upsert acc (key r) (amt r)) s]
    rw [getVal_upsert]
    by_cases h : key r = s
    · have hc : (key r == s) = true := by simp [h]
      have hs2 : s = key r := h.symm
      rw [List.filter_cons, if_pos hc, List.map_cons, List.sum_cons, if_pos hs2]
      ring
    · have hc : ¬ ((key r == s) = true) := by simp [h]
      have hs2 : ¬ (s = key r) := fun hh => h hh.symm
      rw [List.filter_cons, if_neg hc, if_neg hs2]

theorem foldl_upsert_mem_keys : ∀ (rows : List Row) (acc : List (α × ℚ)) (s : α),
    s ∈ (rows.foldl (fun ac r => upsert ac (key r) (amt r)) acc).map Prod.fst
      ↔ s ∈ acc.map Prod.fst ∨ s ∈ rows.map key
  | [], acc, s => by simp
  | r :: rest, acc, s => by
    simp only [List.foldl_cons]
    rw [foldl_upsert_mem_keys rest (upsert acc (key r) (amt r)) s]
    rw [mem_upsert_keys]
    simp only [List.map_cons, List.mem_cons]
    tauto

theorem foldl_upsert_nodup : ∀ (rows : List Row) (acc : List (α × ℚ)),
    (acc.map Prod.fst).Nodup →
    ((rows.foldl (fun ac r => upsert ac (key r) (amt r)) acc).map Prod.fst).Nodup
  | [], _, h => h
  | r :: rest, acc, h => by
    simp only [List.foldl_cons]
    exact foldl_upsert_nodup rest _ (upsert_keys_nodup acc (key r) (amt r) h)

theorem foldl_upsert_values_sum : ∀ (rows : List Row) (acc : List (α × ℚ)),
    ((rows.foldl (fun ac r => upsert ac (key r) (amt r)) acc).map Prod.snd).sum
      = (acc.map Prod.snd).sum + (rows.map amt).sum
  | [], acc => by simp
  | r :: rest, acc => by
    simp only [List.foldl_cons]
    rw [foldl_upsert_values_sum rest (upsert acc (key r) (amt r))]
    rw [upsert_values_sum]
    simp
    ring

end GroupFold
/-! ### C1: correctness of `aggregate_by_sku` -/

theorem skuTotals_perm (rows : List Row) : (aggregate_by_sku rows).Perm (skuTotals rows) :=
  List.perm_insertionSort skuOrder (skuTotals rows)

theorem skuTotals_nodup (rows : List Row) : ((skuTotals rows).map Prod.fst).Nodup :=
  foldl_upsert_nodup Row.sku Row.amount rows [] (by simp)

/-- C1: for every record list, `aggregate_by_sku` yields one `(sku, total)`
pair per distinct SKU of the input (the total being the sum of that SKU's
amounts), sorted descending by total with ties ascending by SKU; empty input
yields the empty list. -/
theorem aggregate_by_sku_correct (rows : List Row) :
    ((aggregate_by_sku rows).map Prod.fst).Nodup
    ∧ (∀ s : String, s ∈ (aggregate_by_sku rows).map Prod.fst ↔ s ∈ rows.map Row.sku)
    ∧ (∀ p ∈ aggregate_by_sku rows,
        p.2 = ((rows.filter (fun r => r.sku == p.1)).map Row.amount).sum)
    ∧ List.Pairwise
        (fun a b : String × ℚ => b.2 < a.2 ∨ (a.2 = b.2 ∧ pyStrLt a.1 b.1))
        (aggregate_by_sku rows)
    ∧ aggregate_by_sku [] = [] := by
  have hperm := skuTotals_perm rows
  have hpermkeys : ((aggregate_by_sku rows).map Prod.fst).Perm ((skuTotals rows).map Prod.fst) :=
    hperm.map Prod.fst
  have hnodup : ((aggregate_by_sku rows).map Prod.fst).Nodup :=
    (hpermkeys.nodup_iff).mpr (skuTotals_nodup rows)
  refine ⟨hnodup, ?_, ?_, ?_, rfl⟩
  · intro s
    rw [hpermkeys.mem_iff]
    have := foldl_upsert_mem_keys Row.sku Row.amount rows [] s
    simpa [skuTotals] using this
  · intro p hp
    have hmem : p ∈ skuTotals rows := hperm.mem_iff.mp hp
    have hval := getVal_of_mem (skuTotals rows) p hmem (skuTotals_nodup rows)
    have hfold := foldl_upsert_getVal Row.sku Row.amount rows [] p.1
    simp only [getVal] at hfold
    rw [hval]
    simpa [skuTotals] using hfold
  · have htot : IsTotal (String × ℚ) skuOrder := ⟨skuOrder_total⟩
    have htrans : IsTrans (String × ℚ) skuOrder := ⟨skuOrder_trans⟩
    have hsorted : List.Pairwise skuOrder (aggregate_by_sku rows) :=
      @List.sorted_insertionSort _ skuOrder _ htot htrans (skuTotals rows)
    have hnepairs : List.Pairwise (fun a b : String × ℚ => a.1 ≠ b.1) (aggregate_by_sku rows) := by
      have := (List.pairwise_map).mp hnodup
      exact this
    refine (hsorted.and hnepairs).imp ?_
    rintro a b ⟨hord, hne⟩
    rcases hord with hlt | ⟨heq, hle⟩
    · exact Or.inl hlt
    · exact Or.inr ⟨heq, pyStrLe_lt_of_ne hle hne⟩
/-! ### C2: conservation of the grand total -/

/-- C2: the by-SKU totals and the by-date totals both sum to the grand total
of all record amounts, which is the value formatted on the `TOTAL` line. -/
theorem totals_consistent (rows : List Row) (top : Option Int) (by_date : Bool) :
    ((aggregate_by_sku rows).map Prod.snd).sum = (rows.map Row.amount).sum
    ∧ ((aggregate_by_date rows).map Prod.snd).sum = (rows.map Row.amount).sum
    ∧ (formatLines rows top by_date).head?
        = some ("TOTAL," ++ formatTwoDec ((rows.map Row.amount).sum)) := by
  refine ⟨?_, ?_, rfl⟩
  · have hperm : ((aggregate_by_sku rows).map Prod.snd).Perm ((skuTotals rows).map Prod.snd) :=
      (skuTotals_perm rows).map Prod.snd
    rw [hperm.sum_eq]
    have := foldl_upsert_values_sum Row.sku Row.amount rows []
    simpa [skuTotals] using this
  · have hperm : ((aggregate_by_date rows).map Prod.snd).Perm ((dateTotals rows).map Prod.snd) :=
      (List.perm_insertionSort dateOrder (dateTotals rows)).map Prod.snd
    rw [hperm.sum_eq]
    have := foldl_upsert_values_sum Row.dt Row.amount rows []
    simpa [dateTotals] using this
/-! ### C3: `top` truncates only the BY_SKU section -/

theorem cons2_append_take (a b : String) (M R : List String) :
    (a :: b :: (M ++ R)).take 2 = [a, b] := rfl

theorem cons2_append_drop (a b : String) (M R : List String) (k : Nat)
    (hk : M.length = k) : (a :: b :: (M ++ R)).drop (2 + k) = R := by
  have h1 : a :: b :: (M ++ R) = ([a, b] ++ M) ++ R := by simp
  rw [h1]
  apply List.drop_left'
  simp [hk]
  omega

/-- C3: with a non-negative `top = n` the output is the header of the
untruncated output, the first `n` by-SKU lines, and the untruncated output's
tail (BY_DATE section and DATE_RANGE) unchanged; a negative `top` or no
`top` yields the full by-SKU listing. -/
theorem format_top_frame (rows : List Row) (n : Int) (by_date : Bool) :
    (0 ≤ n →
      formatLines rows (some n) by_date
        = (formatLines rows none by_date).take 2
          ++ ((aggregate_by_sku rows).take n.toNat).map skuLine
          ++ (formatLines rows none by_date).drop (2 + (aggregate_by_sku rows).length))
    ∧ (n < 0 → formatLines rows (some n) by_date = formatLines rows none by_date)
    ∧ formatLines rows none by_date
        = (formatLines rows none by_date).take 2
          ++ (aggregate_by_sku rows).map skuLine
          ++ (formatLines rows none by_date).drop (2 + (aggregate_by_sku rows).length) := by
  have e_none : formatLines rows none by_date
      = ("TOTAL," ++ formatTwoDec ((rows.map Row.amount).sum)) :: "BY_SKU" ::
        ((aggregate_by_sku rows).map skuLine ++
          ((if by_date then "BY_DATE" :: (aggregate_by_date rows).map dateLine else []) ++
            ["DATE_RANGE," ++ dateRange rows])) := by
    simp [formatLines]
  have e_pos : 0 ≤ n → formatLines rows (some n) by_date
      = ("TOTAL," ++ formatTwoDec ((rows.map Row.amount).sum)) :: "BY_SKU" ::
        (((aggregate_by_sku rows).take n.toNat).map skuLine ++
          ((if by_date then "BY_DATE" :: (aggregate_by_date rows).map dateLine else []) ++
            ["DATE_RANGE," ++ dateRange rows])) := by
    intro hn
    simp only [formatLines, if_pos hn]
    simp
  have e_neg : n < 0 → formatLines rows (some n) by_date
      = ("TOTAL," ++ formatTwoDec ((rows.map Row.amount).sum)) :: "BY_SKU" ::
        ((aggregate_by_sku rows).map skuLine ++
          ((if by_date then "BY_DATE" :: (aggregate_by_date rows).map dateLine else []) ++
            ["DATE_RANGE," ++ dateRange rows])) := by
    intro hn
    simp only [formatLines, if_neg (not_le.mpr hn)]
    simp
  refine ⟨?_, ?_, ?_⟩
  · intro hn
    rw [e_pos hn, e_none,
      cons2_append_take,
      cons2_append_drop _ _ _ _ (aggregate_by_sku rows).length (by simp)]
    simp
  · intro hn
    rw [e_neg hn, e_none]
  · rw [e_none,
      cons2_append_take,
      cons2_append_drop _ _ _ _ (aggregate_by_sku rows).length (by simp)]
    simp
theorem format_top_frame_witness :
    (formatLines [⟨⟨2024, 6, 1⟩, "A", 1⟩] (some (-1)) true
      = formatLines [⟨⟨2024, 6, 1⟩, "A", 1⟩] none true)
    ∧ formatLines [⟨⟨2024, 6, 1⟩, "A", 1⟩] (some 1) false
      = (formatLines [⟨⟨2024, 6, 1⟩, "A", 1⟩] none false).take 2
        ++ ((aggregate_by_sku [⟨⟨2024, 6, 1⟩, "A", 1⟩]).take (Int.toNat 1)).map skuLine
        ++ (formatLines [⟨⟨2024, 6, 1⟩, "A", 1⟩] none false).drop
            (2 + (aggregate_by_sku [⟨⟨2024, 6, 1⟩, "A", 1⟩]).length) :=
  ⟨(format_top_frame [⟨⟨2024, 6, 1⟩, "A", 1⟩] (-1) true).2.1 (by norm_num),
   (format_top_frame [⟨⟨2024, 6, 1⟩, "A", 1⟩] 1 false).1 (by norm_num)⟩

/-! ### Shape of the formatted output -/

theorem formatLines_eq (rows : List Row) (top : Option Int) (by_date : Bool) :
    formatLines rows top by_date
      = ("TOTAL," ++ formatTwoDec ((rows.map Row.amount).sum)) :: "BY_SKU" ::
        ((match top with
          | some n => if 0 ≤ n then (aggregate_by_sku rows).take n.toNat
                      else aggregate_by_sku rows
          | none => aggregate_by_sku rows).map skuLine ++
          ((if by_date then "BY_DATE" :: (aggregate_by_date rows).map dateLine else []) ++
            ["DATE_RANGE," ++ dateRange rows])) := by
  simp [formatLines]

theorem mainBySku_matches (rows : List Row) (t : Option Int) :
    (match mainTop t with
      | some n => if 0 ≤ n then (aggregate_by_sku rows).take n.toNat
                  else aggregate_by_sku rows
      | none => aggregate_by_sku rows) = mainBySku rows t := by
  unfold mainBySku mainTop
  cases t with
  | none => rfl
  | some n =>
    by_cases hn : 0 ≤ n
    · simp [hn]
    · simp [hn]

/-! ### C6: the export and the displayed BY_SKU section agree -/

/-- C6: the export is the header row `sku,amount` followed by exactly one
`[sku, amount]` row per displayed BY_SKU pair, with the same truncation and
the same two-decimal formatting as the display. -/
theorem export_matches_display (rows : List Row) (t : Option Int) (b : Bool) :
    (exportTable rows t).head? = some ["sku", "amount"]
    ∧ (exportTable rows t).drop 1
        = (mainBySku rows t).map (fun p => [p.1, formatTwoDec p.2])
    ∧ ((formatLines rows (mainTop t) b).drop 2).take (mainBySku rows t).length
        = (mainBySku rows t).map skuLine
    ∧ ((exportTable rows t).drop 1).length = (mainBySku rows t).length := by
  refine ⟨rfl, rfl, ?_, by simp [exportTable]⟩
  rw [formatLines_eq]
  rw [mainBySku_matches rows t]
  show ((mainBySku rows t).map skuLine ++ _).take (mainBySku rows t).length
      = (mainBySku rows t).map skuLine
  rw [← List.length_map (mainBySku rows t) skuLine]
  exact List.take_left _ _

/-! ### Two-decimal formatting of whole multiples of 1/100 -/

theorem roundHalfEven_intCast (m : ℤ) : roundHalfEven (m : ℚ) = m := by
  unfold roundHalfEven
  rw [Int.floor_intCast]
  rw [if_pos]
  norm_num

theorem formatTwoDec_of_int (q : ℚ) (m : ℤ) (h : q * 100 = (m : ℚ)) :
    formatTwoDec q
      = (if m < 0 then "-" else "") ++ toString (m.natAbs / 100) ++ "."
        ++ pad2 (m.natAbs % 100) := by
  unfold formatTwoDec
  rw [h, roundHalfEven_intCast]

/-! ### C7: empty and header-only input -/

/-- C7: a zero-byte file and a header-only file both parse to the empty
record list, and the formatted output for the empty record list is
`TOTAL,0.00`, an empty BY_SKU section, and `DATE_RANGE,unknown`. -/
theorem empty_input_output :
    parse_rows "" = .ok []
    ∧ parse_rows "date,sku,amount\n" = .ok []
    ∧ ∀ (t : Option Int) (b : Bool),
        formatLines ([] : List Row) t b
          = ["TOTAL,0.00", "BY_SKU"]
            ++ (if b then ["BY_DATE"] else []) ++ ["DATE_RANGE,unknown"] := by
  refine ⟨rfl, rfl, ?_⟩
  intro t b
  have h0 : formatTwoDec ((([] : List Row).map Row.amount).sum) = "0.00" := by
    rw [show (([] : List Row).map Row.amount).sum = 0 from rfl]
    rw [formatTwoDec_of_int 0 0 (by norm_num)]
    rfl
  rw [formatLines_eq, h0]
  have hsku : aggregate_by_sku ([] : List Row) = [] := rfl
  have hdt : aggregate_by_date ([] : List Row) = [] := rfl
  have hdr : dateRange ([] : List Row) = "unknown" := rfl
  rw [hsku, hdt, hdr]
  cases t with
  | none => cases b <;> simp
  | some n =>
    by_cases hn : 0 ≤ n
    · cases b <;> simp [hn]
    · cases b <;> simp [hn]
/-! ### C8: the worked example from the specification -/

/-- C8: on the worked example the total is 48.00, the BY_SKU order is
CCC (20.00), AAA (19.50), BBB (8.50), and the date range is
2024-06-01..2024-06-06. -/
theorem example_records_output :
    aggregate_by_sku exampleRecords = [("CCC", (20 : ℚ)), ("AAA", (39 : ℚ)/2), ("BBB", (17 : ℚ)/2)]
    ∧ formatLines exampleRecords none false
      = ["TOTAL,48.00", "BY_SKU", "CCC,20.00", "AAA,19.50", "BBB,8.50",
         "DATE_RANGE,2024-06-01..2024-06-06"] := by
  have h1 : skuTotals exampleRecords
      = [("AAA", (10 : ℚ) + 5/2 + 7), ("BBB", (11 : ℚ)/2 + 3), ("CCC", (20 : ℚ))] := by
    simp [skuTotals, exampleRecords, upsert]
  have h2 : aggregate_by_sku exampleRecords
      = [("CCC", (20 : ℚ)), ("AAA", (39 : ℚ)/2), ("BBB", (17 : ℚ)/2)] := by
    have e1 : (10 : ℚ) + 5/2 + 7 = 39/2 := by norm_num
    have e2 : (11 : ℚ)/2 + 3 = 17/2 := by norm_num
    unfold aggregate_by_sku
    rw [h1, e1, e2]
    have hf1 : ¬ skuOrder ("BBB", (17 : ℚ)/2) ("CCC", (20 : ℚ)) := by
      norm_num [skuOrder]
    have hf2 : ¬ skuOrder ("AAA", (39 : ℚ)/2) ("CCC", (20 : ℚ)) := by
      norm_num [skuOrder]
    have hf3 : skuOrder ("AAA", (39 : ℚ)/2) ("BBB", (17 : ℚ)/2) := by
      norm_num [skuOrder]
    simp [List.insertionSort, List.orderedInsert, hf1, hf2, hf3]
  have hft : formatTwoDec ((exampleRecords.map Row.amount).sum) = "48.00" := by
    rw [formatTwoDec_of_int ((exampleRecords.map Row.amount).sum) 4800
      (by simp [exampleRecords]; norm_num)]
    rfl
  have hf20 : formatTwoDec (20 : ℚ) = "20.00" := by
    rw [formatTwoDec_of_int 20 2000 (by norm_num)]
    rfl
  have hf195 : formatTwoDec ((39 : ℚ)/2) = "19.50" := by
    rw [formatTwoDec_of_int ((39 : ℚ)/2) 1950 (by norm_num)]
    rfl
  have hf85 : formatTwoDec ((17 : ℚ)/2) = "8.50" := by
    rw [formatTwoDec_of_int ((17 : ℚ)/2) 850 (by norm_num)]
    rfl
  refine ⟨h2, ?_⟩
  simp only [formatLines_eq, h2, hft, skuLine, List.map_cons, List.map_nil, hf20, hf195, hf85]
  decide
/-! ### C9: the arithmetic helpers -/

/-- C9: `divide(a, 0)` raises `ZeroDivisionError` for every `a`, otherwise
`divide` returns `a / b`; `add` returns `a + b`. -/
theorem divide_add_spec :
    (∀ a : ℚ, divide a 0 = .error "division by zero")
    ∧ (∀ a b : ℚ, b ≠ 0 → divide a b = .ok (a / b))
    ∧ (∀ a b : ℚ, add a b = a + b) :=
  ⟨fun _ => rfl, fun a b hb => by simp [divide, hb], fun _ _ => rfl⟩

theorem divide_add_spec_witness :
    (3 : ℚ) ≠ 0 ∧ divide 6 3 = .ok ((6 : ℚ) / 3) :=
  ⟨by norm_num, divide_add_spec.2.1 6 3 (by norm_num)⟩

/-! ### C10: validation precedence inside a data record -/

/-- C10: field checks have fixed precedence — an empty sku is reported
before anything else, and an invalid date is reported before the amount is
even looked at; a line with several invalid fields reports only the first
failing check. -/
theorem validation_precedence :
    (∀ (i : Nat) (get : String → Option String),
        pyStrip ((get "sku").getD "") = "" →
        parseRecord i get = .error ("line " ++ toString i ++ ": sku must be non-empty"))
    ∧ (∀ (i : Nat) (get : String → Option String),
        pyStrip ((get "sku").getD "") ≠ "" →
        fromisoformat (pyStrip ((get "date").getD "")) = none →
        parseRecord i get
          = .error ("line " ++ toString i ++ ": invalid date '"
              ++ pyStrip ((get "date").getD "") ++ "' (YYYY-MM-DD)"))
    ∧ parse_rows "date,sku,amount\n2024-13-99, ,zz"
        = .error "line 2: sku must be non-empty" := by
  refine ⟨?_, ?_, rfl⟩
  · intro i get h
    simp [parseRecord, h]
  · intro i get h hd
    simp [parseRecord, h, hd]

theorem validation_precedence_witness :
    pyStrip ((dictGet ["date", "sku", "amount"] ["2024-13-99", " ", "zz"] "sku").getD "") = ""
    ∧ parseRecord 2 (dictGet ["date", "sku", "amount"] ["2024-13-99", " ", "zz"])
        = .error "line 2: sku must be non-empty" :=
  ⟨by decide, validation_precedence.1 2 _ (by decide)⟩

/-! ### C4: fail-fast parsing and reported line numbers -/

theorem parseRecords_first_error (fieldnames : List String) :
    ∀ (pre : List (List String)) (i : Nat) (bad : List String)
      (rest : List (List String)) (e : String),
    (∀ k (hk : k < pre.length),
      (parseRecord (i + k) (dictGet fieldnames (pre.get ⟨k, hk⟩))).isOk) →
    parseRecord (i + pre.length) (dictGet fieldnames bad) = .error e →
    parseRecords fieldnames i (pre ++ bad :: rest) = .error e
  | [], i, bad, rest, e, _, herr => by
    simp only [List.length_nil, Nat.add_zero] at herr
    simp only [List.nil_append, parseRecords]
    rw [herr]
  | p :: pre, i, bad, rest, e, hpre, herr => by
    have h0 : (parseRecord i (dictGet fieldnames p)).isOk := by
      have := hpre 0 (by simp)
      simpa using this
    obtain ⟨row, hrow⟩ : ∃ row, parseRecord i (dictGet fieldnames p) = .ok row := by
      revert h0
      cases parseRecord i (dictGet fieldnames p) with
      | error e2 => intro h; simp [Except.isOk, Except.toBool] at h
      | ok r => intro _; exact ⟨r, rfl⟩
    have hih : parseRecords fieldnames (i + 1) (pre ++ bad :: rest) = .error e := by
      apply parseRecords_first_error fieldnames pre (i + 1) bad rest e
      · intro k hk
        have hk2 : k + 1 < (p :: pre).length := by simpa using Nat.succ_lt_succ hk
        have := hpre (k + 1) hk2
        have harith : i + (k + 1) = (i + 1) + k := by omega
        simpa [harith] using this
      · have harith : i + (p :: pre).length = (i + 1) + pre.length := by
          simp
          omega
        rw [harith] at herr
        exact herr
    simp only [List.cons_append, parseRecords]
    rw [hrow]
    simp only [List.append_eq]
    rw [hih]

/-- C4 (amended): parsing fails fast — the first record of the non-blank
data records that fails validation aborts `parse_rows` with exactly its
`InputError` (no partial record list), the reported line number is 2 plus
the record's index among the *non-blank* data records (which equals the
physical line number only when the file has no blank lines), the process
exits with code 2, and an invalid amount is reported as
`invalid amount '<raw>'` with that line number. -/
theorem parse_rows_first_error :
    (∀ (content : String) (fieldnames : List String) (recs : List (List String))
       (pre : List (List String)) (bad : List String) (rest : List (List String)) (e : String),
      content ≠ "" →
      fileRecords content = fieldnames :: recs →
      missingColumns fieldnames = [] →
      recs.filter (fun r => !r.isEmpty) = pre ++ bad :: rest →
      (∀ k (hk : k < pre.length),
        (parseRecord (2 + k) (dictGet fieldnames (pre.get ⟨k, hk⟩))).isOk) →
      parseRecord (2 + pre.length) (dictGet fieldnames bad) = .error e →
      parse_rows content = .error e ∧ mainExit content = 2)
    ∧ (∀ (i : Nat) (get : String → Option String),
        pyStrip ((get "sku").getD "") ≠ "" →
        (fromisoformat (pyStrip ((get "date").getD ""))).isSome →
        pyFloat (pyStrip ((get "amount").getD "")) = none →
        parseRecord i get = .error ("line " ++ toString i ++ ": invalid amount '"
          ++ pyStrip ((get "amount").getD "") ++ "'")) := by
  constructor
  · intro content fieldnames recs pre bad rest e hne hfile hmiss hfilter hpre herr
    have hparse : parse_rows content = .error e := by
      unfold parse_rows
      rw [if_neg hne, hfile]
      change (if missingColumns fieldnames = [] then
          parseRecords fieldnames 2 (recs.filter (fun r => !r.isEmpty))
        else Except.error ("missing required columns: "
          ++ String.intercalate ", " (missingColumns fieldnames))) = Except.error e
      rw [if_pos hmiss, hfilter]
      exact parseRecords_first_error fieldnames pre 2 bad rest e hpre herr
    exact ⟨hparse, by unfold mainExit; rw [hparse]⟩
  · intro i get h1 h2 h3
    obtain ⟨d, hd⟩ := Option.isSome_iff_exists.mp h2
    simp [parseRecord, h1, hd, h3]

/-- C4 counterexample: in a file whose physical line 3 (after a blank line
2) holds the invalid amount, the error reports `line 2` — the index among
non-blank records — not the physical line number 3. -/
theorem parse_rows_line_number_cex :
    parse_rows "date,sku,amount\n\n2024-01-01,A,x" = .error "line 2: invalid amount 'x'"
    ∧ (splitChar '\n' "date,sku,amount\n\n2024-01-01,A,x").get? 2 = some "2024-01-01,A,x"
    ∧ (splitChar '\n' "date,sku,amount\n\n2024-01-01,A,x").get? 1 = some "" :=
  ⟨rfl, by decide, by decide⟩

theorem parse_rows_first_error_witness :
    parse_rows "date,sku,amount\n2024-01-01,A,x" = .error "line 2: invalid amount 'x'"
    ∧ mainExit "date,sku,amount\n2024-01-01,A,x" = 2 :=
  parse_rows_first_error.1 "date,sku,amount\n2024-01-01,A,x" ["date", "sku", "amount"]
    [["2024-01-01", "A", "x"]] [] ["2024-01-01", "A", "x"] [] "line 2: invalid amount 'x'"
    (by decide) (by decide) (by decide) (by decide)
    (fun k hk => absurd hk (by simp))
    rfl
/-! ### C5: what the amount field must parse as -/

/-- C5 counterexample: `float()` accepts the non-finite literal `"inf"`, so
a data line with amount `inf` parses successfully instead of raising
`InputError` — the amount is not required to be finite. -/
theorem amount_finite_cex :
    parse_rows "date,sku,amount\n2024-06-01,A,inf"
      = .ok [⟨⟨2024, 6, 1⟩, "A", PyVal.inf⟩]
    ∧ pyFloat "inf" = some PyVal.inf :=
  ⟨rfl, by decide⟩

/-- C5 (amended): the trimmed amount must parse as a Python `float()`
literal — a finite decimal number, a signed infinity, or NaN.  For a record
whose sku and date are valid, the row parser succeeds exactly when `float()`
accepts the amount; acceptance (including the non-finite literals `inf` and
`nan`) stores the parsed value, and rejection raises `InputError` with the
line number and the offending raw string. -/
theorem amount_parse_spec :
    (∀ (i : Nat) (get : String → Option String),
      pyStrip ((get "sku").getD "") ≠ "" →
      (fromisoformat (pyStrip ((get "date").getD ""))).isSome →
      ((parseRecord i get).isOk ↔ (pyFloat (pyStrip ((get "amount").getD ""))).isSome))
    ∧ (∀ (i : Nat) (get : String → Option String) (d : Date) (v : PyVal),
      pyStrip ((get "sku").getD "") ≠ "" →
      fromisoformat (pyStrip ((get "date").getD "")) = some d →
      pyFloat (pyStrip ((get "amount").getD "")) = some v →
      parseRecord i get = .ok ⟨d, pyStrip ((get "sku").getD ""), v⟩)
    ∧ (∀ (i : Nat) (get : String → Option String),
      pyStrip ((get "sku").getD "") ≠ "" →
      (fromisoformat (pyStrip ((get "date").getD ""))).isSome →
      pyFloat (pyStrip ((get "amount").getD "")) = none →
      parseRecord i get = .error ("line " ++ toString i ++ ": invalid amount '"
        ++ pyStrip ((get "amount").getD "") ++ "'"))
    ∧ pyFloat "inf" = some PyVal.inf ∧ pyFloat "nan" = some PyVal.nan := by
  refine ⟨?_, ?_, ?_, by decide, by decide⟩
  · intro i get h1 h2
    obtain ⟨d, hd⟩ := Option.isSome_iff_exists.mp h2
    cases hv : pyFloat (pyStrip ((get "amount").getD "")) with
    | none => simp [parseRecord, h1, hd, hv, Except.isOk, Except.toBool]
    | some v => simp [parseRecord, h1, hd, hv, Except.isOk, Except.toBool]
  · intro i get d v h1 hd hv
    simp [parseRecord, h1, hd, hv]
  · intro i get h1 h2 h3
    obtain ⟨d, hd⟩ := Option.isSome_iff_exists.mp h2
    simp [parseRecord, h1, hd, h3]

theorem amount_parse_spec_witness :
    pyStrip ((dictGet ["date", "sku", "amount"] ["2024-06-01", "A", "inf"] "sku").getD "") ≠ ""
    ∧ parseRecord 2 (dictGet ["date", "sku", "amount"] ["2024-06-01", "A", "inf"])
        = .ok ⟨⟨2024, 6, 1⟩, "A", PyVal.inf⟩ :=
  ⟨by decide,
   amount_parse_spec.2.1 2 (dictGet ["date", "sku", "amount"] ["2024-06-01", "A", "inf"])
     ⟨2024, 6, 1⟩ PyVal.inf (by decide) (by decide) (by decide)⟩
